import Mathlib

/-!
Verification of the dsmr_custom component.

This file embeds the configuration-validation and code-generation logic of
the repository's Python sources (src/components/dsmr_custom/init file,
src/sensor.py, src/text_sensor.py) as Lean definitions, together with
models of the parts of the pipeline whose C++ implementation is external to
the given sources (dispatch registry, decryption unit, field walker), which
are modelled from the specification's contracts. Theorems settle the
specification's claims against these definitions.
-/

namespace DsmrCustom

/-! ## Data model: parsed values, bindings, dispatch registry -/

/-- Provenance tag of a sensor binding: built-in `Standard` or user-declared
`Custom` (spec section 3, SensorBinding). -/
inductive Provenance
  | Standard
  | Custom
deriving DecidableEq

/-- A parsed value: tagged union of numeric value (mantissa scaled by
10^exponent, with unit), text, timestamp, or raw (spec section 3,
ParsedValue). -/
inductive ParsedValue
  | numeric (mantissa : Int) (exponent : Nat) (unit : String)
  | text (s : String)
  | timestamp (s : String) (dst : Bool)
  | raw (s : String)
deriving DecidableEq

/-- A sensor binding: an OBIS code, a sink identity, and a provenance tag
(spec section 3, SensorBinding). -/
structure SensorBinding where
  code : String
  sink : String
  prov : Provenance
deriving DecidableEq

/-- All bindings registered for a given OBIS code, in registration order. -/
def bindingsFor (reg : List SensorBinding) (code : String) : List SensorBinding :=
  reg.filter (fun b => b.code = code)

/-- Modelled from the spec: the C++ hub's dispatch mechanism (dsmr.h /
dsmr.cpp, not among the given sources). Spec section 4.5: dispatch looks up
all bindings for the code and, if both provenances are present, delivers
only to the `Custom` ones; if only one provenance is present, delivers to
it; if none, the pair is dropped silently. Returns the list of (binding,
value) deliveries performed. -/
def dispatch (reg : List SensorBinding) (code : String) (v : ParsedValue) :
    List (SensorBinding × ParsedValue) :=
  let bs := bindingsFor reg code
  if bs.any (fun b => b.prov = Provenance.Custom) then
    (bs.filter (fun b => b.prov = Provenance.Custom)).map (fun b => (b, v))
  else
    bs.map (fun b => (b, v))

/-! ## Decryption key validation (from src/components/dsmr_custom, function
validate_key of the package init file) -/

/-- ASCII hexadecimal digit, as accepted by Python int conversion with
base 16. -/
def isHexChar (c : Char) : Bool :=
  (('0' ≤ c && c ≤ '9') || ('a' ≤ c && c ≤ 'f') || ('A' ≤ c && c ≤ 'F'))

/-- Numeric value of a hexadecimal digit character. -/
def hexVal (c : Char) : Nat :=
  if '0' ≤ c && c ≤ '9' then c.toNat - '0'.toNat
  else if 'a' ≤ c && c ≤ 'f' then c.toNat - 'a'.toNat + 10
  else c.toNat - 'A'.toNat + 10

/-- An ASCII character (code point at most 127). -/
def isAsciiChar (c : Char) : Bool :=
  c.toNat ≤ 127

/-- ASCII characters treated as whitespace by Python int conversion: tab,
line feed, vertical tab, form feed, carriage return, the four ASCII
separator control characters 1C-1F, and the space. -/
def isPySpace (c : Char) : Bool :=
  c = ' ' || c = '\t' || c = '\n' || c = '\r' || c = '\x0b' || c = '\x0c'
    || c = '\x1c' || c = '\x1d' || c = '\x1e' || c = '\x1f'

/-- Python int conversion with base 16 applied to a two-character string
(the only shape the key validator feeds it), restricted to its ASCII
fragment: two hex digits, or a hex digit with a leading sign, or a hex
digit with leading or trailing whitespace; any other ASCII pair raises.
The fragment is exact on ASCII strings; full Python int additionally
accepts non-ASCII Unicode decimal digits and non-ASCII Unicode whitespace,
which lie outside this model and are mapped to `none` here. -/
def pyIntHex2 (a b : Char) : Option Int :=
  if isHexChar a && isHexChar b then some (16 * hexVal a + hexVal b)
  else if a = '+' && isHexChar b then some (hexVal b)
  else if a = '-' && isHexChar b then some (-(hexVal b : Int))
  else if isPySpace a && isHexChar b then some (hexVal b)
  else if isHexChar a && isPySpace b then some (hexVal a)
  else none

/-- Split a character list into consecutive chunks of two, the last chunk
having one element when the length is odd: the Python slicing
value[i : i + 2] for i in range(0, len(value), 2). -/
def chunk2 : List Char → List (List Char)
  | [] => []
  | [a] => [[a]]
  | a :: b :: rest => [a, b] :: chunk2 rest

/-- Python format 02X applied to one converted key part: uppercase
hexadecimal padded to width two; a negative part renders as a minus sign
followed by one hex digit (parts lie in -15..255). -/
def pyFormat02X (n : Int) : String :=
  if n < 0 then
    String.mk ('-' :: ((Nat.toDigits 16 (-n).toNat).map Char.toUpper))
  else if n < 16 then
    String.mk ('0' :: (Nat.toDigits 16 n.toNat).map Char.toUpper)
  else
    String.mk ((Nat.toDigits 16 n.toNat).map Char.toUpper)

/-- Python int conversion with base 16 applied to one two-character part,
addressing its two characters. -/
def pyIntHex2Part (p : List Char) : Option Int :=
  pyIntHex2 (p.headD ' ') ((p.drop 1).headD ' ')

/-- The conversion loop of the key validator: convert each part with Python
int base 16, raising (`none`) on the first part that fails. -/
def convParts : List (List Char) → Option (List Int)
  | [] => some []
  | p :: rest =>
    match pyIntHex2Part p with
    | none => none
    | some n =>
      match convParts rest with
      | none => none
      | some ns => some (n :: ns)

/-- The decryption-key validator of the component's package init file
(function validate_key): an empty string is returned unchanged; otherwise
the string is split into two-character parts, there must be exactly 16
parts each of length two, each part is converted by Python int with
base 16, and the normalized uppercase-hex rendering of the parts is
returned. `none` models a raised Invalid error. -/
def pyValidateKey (v : String) : Option String :=
  if v = "" then some ""
  else
    let parts := chunk2 v.toList
    if parts.length ≠ 16 then none
    else if parts.any (fun p => p.length ≠ 2) then none
    else
      match convParts parts with
      | none => none
      | some ints => some (String.join (ints.map pyFormat02X))

/-- A two-character chunk that Python int with base 16 accepts. -/
def chunkAccepted (p : List Char) : Bool :=
  p.length = 2 && (pyIntHex2Part p).isSome

/-- All aligned two-character chunks of the string are accepted. -/
def keyChunksAccepted (v : String) : Bool :=
  (chunk2 v.toList).all chunkAccepted

theorem chunk2_length (cs : List Char) : (chunk2 cs).length = (cs.length + 1) / 2 := by
  induction cs using chunk2.induct with
  | case1 => simp [chunk2]
  | case2 a => simp [chunk2]
  | case3 a b rest ih => simp only [chunk2, List.length_cons, ih]; omega

theorem chunk2_len_two_iff (cs : List Char) :
    (∀ p ∈ chunk2 cs, p.length = 2) ↔ cs.length % 2 = 0 := by
  induction cs using chunk2.induct with
  | case1 => simp [chunk2]
  | case2 a => simp [chunk2]
  | case3 a b rest ih =>
    simp only [chunk2, List.mem_cons, List.length_cons]
    constructor
    · intro h
      have := (ih.mp (fun p hp => h p (Or.inr hp)))
      omega
    · intro h p hp
      rcases hp with h1 | h2
      · simp [h1]
      · exact ih.mpr (by omega) p h2

theorem chunk2_mem_mem {cs : List Char} {p : List Char} {c : Char}
    (hp : p ∈ chunk2 cs) (hc : c ∈ p) : c ∈ cs := by
  induction cs using chunk2.induct with
  | case1 => simp [chunk2] at hp
  | case2 a => simp [chunk2] at hp; subst hp; simpa using hc
  | case3 a b rest ih =>
    simp only [chunk2, List.mem_cons] at hp
    rcases hp with h1 | h2
    · subst h1
      simp only [List.mem_cons, List.not_mem_nil, or_false] at hc
      simp [List.mem_cons, hc.imp_right Or.inl]
    · simp [List.mem_cons, ih h2]

theorem convParts_isSome_iff (ps : List (List Char)) :
    (convParts ps).isSome ↔ ∀ p ∈ ps, (pyIntHex2Part p).isSome := by
  induction ps with
  | nil => simp [convParts]
  | cons p rest ih =>
    simp only [convParts, List.mem_cons]
    rcases hp : pyIntHex2Part p with _ | n
    · simp [hp]
    · rcases hr : convParts rest with _ | ns
      · simp only [hr, Option.isSome_none, Bool.false_eq_true, false_iff] at ih ⊢
        push_neg at ih
        obtain ⟨q, hq, hqn⟩ := ih
        intro h
        exact hqn (h q (Or.inr hq))
      · simp only [hr, Option.isSome_some, true_iff] at ih
        simp only [Option.isSome_some, true_iff]
        intro q hq
        rcases hq with h1 | h2
        · simp [h1, hp]
        · exact ih q h2

theorem pyIntHex2Part_hex {p : List Char} (h2 : p.length = 2)
    (hhex : ∀ c ∈ p, isHexChar c = true) : (pyIntHex2Part p).isSome := by
  match p, h2 with
  | [a, b], _ =>
    have ha := hhex a (by simp)
    have hb := hhex b (by simp)
    simp [pyIntHex2Part, pyIntHex2, ha, hb]

theorem pyValidateKey_isSome_iff (v : String) :
    (pyValidateKey v).isSome ↔
      (v = "" ∨ (v.toList.length = 32 ∧ keyChunksAccepted v = true)) := by
  by_cases hv : v = ""
  · subst hv; simp [pyValidateKey]
  · rw [pyValidateKey, if_neg hv]
    have hlen : (chunk2 v.toList).length = (v.toList.length + 1) / 2 := chunk2_length _
    by_cases h16 : (chunk2 v.toList).length = 16
    · rw [if_neg (by simp only [ne_eq, not_not]; exact h16)]
      by_cases hall : ∀ p ∈ chunk2 v.toList, p.length = 2
      · have h32 : v.toList.length = 32 := by
          have heven := (chunk2_len_two_iff v.toList).mp hall
          omega
        rw [if_neg (by
          simp only [List.any_eq_true, decide_eq_true_eq, not_exists]
          intro p
          simp only [not_and, not_not]
          exact hall p)]
        rcases hconv : convParts (chunk2 v.toList) with _ | ints
        · have hnot : ¬ ∀ p ∈ chunk2 v.toList, (pyIntHex2Part p).isSome := by
            intro hc
            have := (convParts_isSome_iff (chunk2 v.toList)).mpr hc
            rw [hconv] at this
            simp at this
          simp only [Option.isSome_none, Bool.false_eq_true, false_iff, hv, false_or,
            not_and, keyChunksAccepted, List.all_eq_true]
          intro _ hacc
          exact hnot (fun p hp => by
            have := hacc p hp
            simp only [chunkAccepted, Bool.and_eq_true, decide_eq_true_eq] at this
            exact this.2)
        · have hsome : ∀ p ∈ chunk2 v.toList, (pyIntHex2Part p).isSome := by
            have : (convParts (chunk2 v.toList)).isSome := by rw [hconv]; simp
            exact (convParts_isSome_iff _).mp this
          simp only [Option.isSome_some, true_iff, hv, false_or]
          refine ⟨h32, ?_⟩
          simp only [keyChunksAccepted, List.all_eq_true]
          intro p hp
          simp only [chunkAccepted, Bool.and_eq_true, decide_eq_true_eq]
          exact ⟨hall p hp, hsome p hp⟩
      · rw [if_pos (by
          simp only [List.any_eq_true, decide_eq_true_eq]
          push_neg at hall
          obtain ⟨p, hp, hn⟩ := hall
          exact ⟨p, hp, hn⟩)]
        simp only [Option.isSome_none, Bool.false_eq_true, false_iff, hv, false_or, not_and]
        intro h32
        simp only [keyChunksAccepted, List.all_eq_true]
        push_neg at hall
        obtain ⟨p, hp, hn⟩ := hall
        intro hacc
        have := hacc p hp
        simp only [chunkAccepted, Bool.and_eq_true, decide_eq_true_eq] at this
        exact hn this.1
    · rw [if_pos h16]
      simp only [Option.isSome_none, Bool.false_eq_true, false_iff, hv, false_or, not_and]
      intro h32
      omega

/-- Claim C2 (amended): a decryption key passes configuration-time
validation only when it is the empty string or has exactly 32 characters;
for a key made of ASCII characters, validation passes exactly when the key
is empty, or it has exactly 32 characters each aligned two-character chunk
of which is accepted by Python int with base 16; in particular every
string of exactly 32 hexadecimal characters passes. Any string of another
length raises at configuration time. (Python int also accepts non-ASCII
Unicode digits and whitespace, which are outside the modelled ASCII
fragment.) -/
theorem decryption_key_validation (v : String) :
    ((pyValidateKey v).isSome → v = "" ∨ v.toList.length = 32)
  ∧ (v.toList.all isAsciiChar = true →
      ((pyValidateKey v).isSome ↔
        (v = "" ∨ (v.toList.length = 32 ∧ keyChunksAccepted v = true))))
  ∧ (v.toList.length = 32 → v.toList.all isHexChar = true → (pyValidateKey v).isSome) := by
  refine ⟨fun h => ((pyValidateKey_isSome_iff v).mp h).imp id And.left,
    fun _ => pyValidateKey_isSome_iff v, fun h32 hhex => ?_⟩
  refine (pyValidateKey_isSome_iff v).mpr (Or.inr ⟨h32, ?_⟩)
  simp only [keyChunksAccepted, List.all_eq_true]
  intro p hp
  have hlen2 : p.length = 2 := by
    refine (chunk2_len_two_iff v.toList).mpr (by omega) p hp
  simp only [chunkAccepted, Bool.and_eq_true, decide_eq_true_eq]
  refine ⟨hlen2, pyIntHex2Part_hex hlen2 (fun c hc => ?_)⟩
  simp only [List.all_eq_true] at hhex
  exact hhex c (chunk2_mem_mem hp hc)

/-- Claim C2 witness: a 32-hex-character key is accepted. -/
theorem decryption_key_validation_witness :
    (pyValidateKey "00112233445566778899AABBCCDDEEFF").isSome :=
  (decryption_key_validation "00112233445566778899AABBCCDDEEFF").2.2 (by decide) (by decide)

/-- Claim C2 counterexample: the empty string passes key validation even
though it does not consist of exactly 32 hexadecimal characters. -/
theorem decryption_key_validation_cex :
    pyValidateKey "" = some "" ∧ ("" : String).toList.length ≠ 32 := by
  refine ⟨rfl, by decide⟩

/-- Claim C3 (amended): an explicitly empty decryption key passes
configuration validation and is returned as the empty string; every other
string passes only if it has exactly 32 characters, but such a passing
string need not consist solely of hexadecimal characters, since Python int
with base 16 also accepts a sign or whitespace character paired with a hex
digit. -/
theorem empty_key_passes :
    pyValidateKey "" = some ""
  ∧ ∀ v : String, (pyValidateKey v).isSome → v = "" ∨ v.toList.length = 32 :=
  ⟨rfl, fun v h => ((pyValidateKey_isSome_iff v).mp h).imp id And.left⟩

/-- Claim C3 witness: a passing nonempty key has 32 characters. -/
theorem empty_key_passes_witness :
    ("00112233445566778899AABBCCDDEEFF" : String) = ""
    ∨ ("00112233445566778899AABBCCDDEEFF" : String).toList.length = 32 :=
  empty_key_passes.2 "00112233445566778899AABBCCDDEEFF" (by decide)

/-- Claim C3 counterexample: a 32-character string of sign-digit pairs
passes key validation although it is not made of hexadecimal characters
only, refuting the clause that every non-32-hex-character string other
than the empty one fails. -/
theorem empty_key_passes_cex :
    (pyValidateKey "+1+1+1+1+1+1+1+1+1+1+1+1+1+1+1+1").isSome
  ∧ ("+1+1+1+1+1+1+1+1+1+1+1+1+1+1+1+1" : String).toList.all isHexChar = false
  ∧ ("+1+1+1+1+1+1+1+1+1+1+1+1+1+1+1+1" : String) ≠ "" := by decide

theorem count_pair_map (l : List SensorBinding) (v : ParsedValue) (b : SensorBinding) :
    (l.map (fun x => (x, v))).count (b, v) = l.count b := by
  induction l with
  | nil => rfl
  | cons a rest ih => simp [List.count_cons, ih, beq_iff_eq, Prod.mk.injEq]

/-- Claim C1: for an OBIS code that has both a Custom binding and a
Standard binding registered, dispatching a parsed value for that code
delivers the value to the Custom binding exactly once (the binding being
registered once) and never delivers it to the Standard binding:
override-wins, not fan-out-to-both. -/
theorem dispatch_custom_overrides (reg : List SensorBinding) (code : String)
    (v : ParsedValue) (b bstd : SensorBinding)
    (hb : b ∈ bindingsFor reg code) (hbp : b.prov = Provenance.Custom)
    (hone : (bindingsFor reg code).count b = 1)
    (hs : bstd ∈ bindingsFor reg code) (hsp : bstd.prov = Provenance.Standard) :
    (dispatch reg code v).count (b, v) = 1 ∧ (bstd, v) ∉ dispatch reg code v := by
  have hany : (bindingsFor reg code).any (fun x => decide (x.prov = Provenance.Custom)) = true := by
    simp only [List.any_eq_true, decide_eq_true_eq]
    exact ⟨b, hb, hbp⟩
  rw [dispatch]
  rw [if_pos hany]
  constructor
  · rw [count_pair_map]
    rw [List.count_filter (by simp [hbp])]
    exact hone
  · intro hmem
    simp only [List.mem_map] at hmem
    obtain ⟨x, hx, hxe⟩ := hmem
    have hxb : x = bstd := congrArg Prod.fst hxe
    subst hxb
    have := List.of_mem_filter hx
    simp only [decide_eq_true_eq] at this
    rw [hsp] at this
    cases this

/-- Claim C1 witness: a concrete registry with one Custom and one Standard
binding on the same code. -/
theorem dispatch_custom_overrides_witness :
    (dispatch
        [⟨"1-0:1.8.1", "custom_sink", Provenance.Custom⟩,
         ⟨"1-0:1.8.1", "standard_sink", Provenance.Standard⟩]
        "1-0:1.8.1" (ParsedValue.numeric 123456 3 "kWh")).count
      (⟨"1-0:1.8.1", "custom_sink", Provenance.Custom⟩,
       ParsedValue.numeric 123456 3 "kWh") = 1
  ∧ (⟨"1-0:1.8.1", "standard_sink", Provenance.Standard⟩,
       ParsedValue.numeric 123456 3 "kWh") ∉
      dispatch
        [⟨"1-0:1.8.1", "custom_sink", Provenance.Custom⟩,
         ⟨"1-0:1.8.1", "standard_sink", Provenance.Standard⟩]
        "1-0:1.8.1" (ParsedValue.numeric 123456 3 "kWh") :=
  dispatch_custom_overrides _ _ _
    ⟨"1-0:1.8.1", "custom_sink", Provenance.Custom⟩
    ⟨"1-0:1.8.1", "standard_sink", Provenance.Standard⟩
    (by decide) (by decide) (by decide) (by decide) (by decide)

/-! ## Configuration schema and hub code generation (from
src/components/dsmr_custom, CONFIG_SCHEMA and to_code of the package init
file) -/

/-- The validator cv.int_range with bounds lo and hi, inclusive: accepts an
integer exactly when it lies between the bounds, raising otherwise. -/
def intRangeValidator (lo hi n : Int) : Option Int :=
  if lo ≤ n ∧ n ≤ hi then some n else none

/-- The validator cv.positive_int: accepts a non-negative integer. -/
def positiveIntValidator (n : Int) : Option Int :=
  if 0 ≤ n then some n else none

/-- The validator cv.positive_time_period_milliseconds applied to a time
string of the forms used by this schema: a decimal number with a unit
suffix ms, s, min or h, converted to milliseconds. -/
def parseTimeMs (s : String) : Option Nat :=
  let cs := s.toList
  let ds := cs.takeWhile Char.isDigit
  let unit := cs.dropWhile Char.isDigit
  if ds.isEmpty then none
  else
    let n := ds.foldl (fun acc c => 10 * acc + (c.toNat - '0'.toNat)) 0
    if unit = ['m', 's'] then some n
    else if unit = ['s'] then some (n * 1000)
    else if unit = ['m', 'i', 'n'] then some (n * 60000)
    else if unit = ['h'] then some (n * 3600000)
    else none

/-- A raw user configuration for the dsmr_custom hub: each optional key of
CONFIG_SCHEMA is `none` when the user omits it. -/
structure RawConfig where
  max_telegram_length : Option Int
  decryption_key : Option String
  has_request_pin : Bool
  request_interval : Option String
  receive_timeout : Option String
  crc_check : Option Bool
  gas_mbus_id : Option Int
  water_mbus_id : Option Int
deriving DecidableEq

/-- A validated configuration, after defaults are applied and every
per-key validator has accepted. -/
structure Config where
  max_telegram_length : Int
  decryption_key : Option String
  has_request_pin : Bool
  request_interval : Nat
  receive_timeout : Nat
  crc_check : Bool
  gas_mbus_id : Int
  water_mbus_id : Int
deriving DecidableEq

/-- CONFIG_SCHEMA of the package init file: each optional key falls back to
its declared default (max_telegram_length 1500, request_interval the time
string 0s, receive_timeout the time string 200ms, crc_check true,
gas_mbus_id 1, water_mbus_id 2) and is then run through its validator; any
validator failure aborts configuration (`none`), before any acquisition
begins. -/
def validateConfig (raw : RawConfig) : Option Config := do
  let mtl ← positiveIntValidator (raw.max_telegram_length.getD 1500)
  let key ← match raw.decryption_key with
            | none => some none
            | some k => (pyValidateKey k).map some
  let ri ← parseTimeMs (raw.request_interval.getD "0s")
  let rt ← parseTimeMs (raw.receive_timeout.getD "200ms")
  let crc := raw.crc_check.getD true
  let gas ← intRangeValidator 0 255 (raw.gas_mbus_id.getD 1)
  let water ← intRangeValidator 0 255 (raw.water_mbus_id.getD 2)
  some ⟨mtl, key, raw.has_request_pin, ri, rt, crc, gas, water⟩

/-- One generated call of the hub's to_code: a setter invocation on the hub
variable or a build-flag definition. -/
inductive HubCall
  | setMaxTelegramLength (n : Int)
  | setReceiveTimeout (ms : Nat)
  | setDecryptionKey (k : String)
  | setRequestPin
  | setRequestInterval (ms : Nat)
  | gasMbusBuildFlag (n : Int)
  | waterMbusBuildFlag (n : Int)
deriving DecidableEq

/-- The sequence of hub calls generated by to_code of the package init file
(lines 145-158) for a validated configuration: set_max_telegram_length,
set_receive_timeout, set_decryption_key when a key is configured,
set_request_pin when a pin is configured, set_request_interval, and the two
M-Bus channel-id build flags. -/
def toCodeCalls (cfg : Config) : List HubCall :=
  [HubCall.setMaxTelegramLength cfg.max_telegram_length,
   HubCall.setReceiveTimeout cfg.receive_timeout]
  ++ (match cfg.decryption_key with
      | some k => [HubCall.setDecryptionKey k]
      | none => [])
  ++ (if cfg.has_request_pin then [HubCall.setRequestPin] else [])
  ++ [HubCall.setRequestInterval cfg.request_interval,
      HubCall.gasMbusBuildFlag cfg.gas_mbus_id,
      HubCall.waterMbusBuildFlag cfg.water_mbus_id]

theorem validateConfig_some_inv (raw : RawConfig) (cfg : Config)
    (hv : validateConfig raw = some cfg) :
    positiveIntValidator (raw.max_telegram_length.getD 1500) = some cfg.max_telegram_length
  ∧ parseTimeMs (raw.request_interval.getD "0s") = some cfg.request_interval
  ∧ parseTimeMs (raw.receive_timeout.getD "200ms") = some cfg.receive_timeout
  ∧ cfg.crc_check = raw.crc_check.getD true
  ∧ intRangeValidator 0 255 (raw.gas_mbus_id.getD 1) = some cfg.gas_mbus_id
  ∧ intRangeValidator 0 255 (raw.water_mbus_id.getD 2) = some cfg.water_mbus_id := by
  rcases hdk : raw.decryption_key with _ | k
  · simp only [validateConfig, hdk, Option.bind_eq_bind, Option.some_bind,
      Option.bind_eq_some, Option.some.injEq] at hv
    obtain ⟨mtl, hmtl, ri, hri, rt, hrt, gas, hgas, water, hwater, hfin⟩ := hv
    subst hfin
    exact ⟨hmtl, hri, hrt, rfl, hgas, hwater⟩
  · simp only [validateConfig, hdk, Option.bind_eq_bind, Option.some_bind,
      Option.bind_eq_some, Option.some.injEq] at hv
    obtain ⟨mtl, hmtl, key, hkey, ri, hri, rt, hrt, gas, hgas, water, hwater, hfin⟩ := hv
    subst hfin
    exact ⟨hmtl, hri, hrt, rfl, hgas, hwater⟩

/-- Claim C5: configuration validation accepts a gas or water channel id
exactly when it lies in the inclusive range 0 to 255, and an out-of-range
value makes the whole configuration fail (fatal at startup). -/
theorem channel_id_range :
    (∀ n : Int, (intRangeValidator 0 255 n).isSome ↔ (0 ≤ n ∧ n ≤ 255))
  ∧ (∀ (raw : RawConfig) (n : Int), raw.gas_mbus_id = some n →
      ¬(0 ≤ n ∧ n ≤ 255) → validateConfig raw = none)
  ∧ (∀ (raw : RawConfig) (n : Int), raw.water_mbus_id = some n →
      ¬(0 ≤ n ∧ n ≤ 255) → validateConfig raw = none) := by
  refine ⟨fun n => ?_, fun raw n hg hn => ?_, fun raw n hw hn => ?_⟩
  · simp only [intRangeValidator]
    split <;> simp_all
  · have hgas : intRangeValidator 0 255 (raw.gas_mbus_id.getD 1) = none := by
      rw [hg]
      simp only [Option.getD_some, intRangeValidator, if_neg hn]
    rcases hval : validateConfig raw with _ | cfg
    · rfl
    · exact absurd ((validateConfig_some_inv raw cfg hval).2.2.2.2.1.symm.trans hgas)
        (by simp)
  · have hwater : intRangeValidator 0 255 (raw.water_mbus_id.getD 2) = none := by
      rw [hw]
      simp only [Option.getD_some, intRangeValidator, if_neg hn]
    rcases hval : validateConfig raw with _ | cfg
    · rfl
    · exact absurd ((validateConfig_some_inv raw cfg hval).2.2.2.2.2.symm.trans hwater)
        (by simp)

/-- Claim C5 witness: channel id 300 is rejected and makes validation of a
concrete configuration fail. -/
theorem channel_id_range_witness :
    validateConfig ⟨none, none, false, none, none, none, some 300, none⟩ = none :=
  channel_id_range.2.1 ⟨none, none, false, none, none, none, some 300, none⟩ 300
    rfl (by decide)

/-- Claim C6: omitting max_telegram_length defaults it to 1500 bytes and
omitting receive_timeout defaults it to 200 milliseconds in the validated
configuration. -/
theorem default_lengths (raw : RawConfig) (cfg : Config)
    (hm : raw.max_telegram_length = none) (hr : raw.receive_timeout = none)
    (hv : validateConfig raw = some cfg) :
    cfg.max_telegram_length = 1500 ∧ cfg.receive_timeout = 200 := by
  obtain ⟨h1, _, h3, _⟩ := validateConfig_some_inv raw cfg hv
  rw [hm, Option.getD_none] at h1
  rw [hr, Option.getD_none] at h3
  have e1 : positiveIntValidator 1500 = some 1500 := by decide
  have e3 : parseTimeMs "200ms" = some 200 := by decide
  rw [e1] at h1
  rw [e3] at h3
  exact ⟨(Option.some_inj.mp h1).symm, (Option.some_inj.mp h3).symm⟩

/-- Claim C6 witness: validating the all-defaults configuration. -/
theorem default_lengths_witness :
    (⟨1500, none, false, 0, 200, true, 1, 2⟩ : Config).max_telegram_length = 1500
  ∧ (⟨1500, none, false, 0, 200, true, 1, 2⟩ : Config).receive_timeout = 200 :=
  default_lengths ⟨none, none, false, none, none, none, none, none⟩ _
    rfl rfl (by decide)

/-- Claim C8: omitting request_interval defaults the minimum request
interval to 0 milliseconds (continuous operation), and to_code passes this
value to the hub's set_request_interval setter. -/
theorem default_request_interval (raw : RawConfig) (cfg : Config)
    (h : raw.request_interval = none) (hv : validateConfig raw = some cfg) :
    cfg.request_interval = 0 ∧ HubCall.setRequestInterval 0 ∈ toCodeCalls cfg := by
  obtain ⟨_, h2, _⟩ := validateConfig_some_inv raw cfg hv
  rw [h, Option.getD_none] at h2
  have e2 : parseTimeMs "0s" = some 0 := by decide
  rw [e2] at h2
  have h0 : cfg.request_interval = 0 := (Option.some_inj.mp h2).symm
  refine ⟨h0, ?_⟩
  rw [← h0]
  simp [toCodeCalls]

/-- Claim C8 witness: the all-defaults configuration. -/
theorem default_request_interval_witness :
    (⟨1500, none, false, 0, 200, true, 1, 2⟩ : Config).request_interval = 0
  ∧ HubCall.setRequestInterval 0 ∈ toCodeCalls ⟨1500, none, false, 0, 200, true, 1, 2⟩ :=
  default_request_interval ⟨none, none, false, none, none, none, none, none⟩ _
    rfl (by decide)

/-- Claim C9: omitting crc_check defaults it to true, so CRC validation is
enabled unless explicitly disabled. -/
theorem default_crc_check (raw : RawConfig) (cfg : Config)
    (h : raw.crc_check = none) (hv : validateConfig raw = some cfg) :
    cfg.crc_check = true := by
  obtain ⟨_, _, _, h4, _⟩ := validateConfig_some_inv raw cfg hv
  rw [h, Option.getD_none] at h4
  exact h4

/-- Claim C9 witness: the all-defaults configuration. -/
theorem default_crc_check_witness :
    (⟨1500, none, false, 0, 200, true, 1, 2⟩ : Config).crc_check = true :=
  default_crc_check ⟨none, none, false, none, none, none, none, none⟩ _
    rfl (by decide)

/-! ## Decryption unit (modelled from the spec) -/

/-- Modelled from the spec: the C++ decryption unit (AES-128-GCM through
the vendored crypto library) is not among the given sources. Following the
spec's contract (section 4.2), we model an idealized authenticated stream
cipher: a keystream byte derived from the 16-byte key and the frame's
initialization-vector value. -/
def ksByte (key : List Nat) (iv i : Nat) : Nat :=
  key.getD ((iv + i) % 16) 0

/-- XOR a byte list against the keystream starting at stream position i. -/
def streamXor (key : List Nat) (iv : Nat) : Nat → List Nat → List Nat
  | _, [] => []
  | i, b :: bs => (b ^^^ ksByte key iv i) :: streamXor key iv (i + 1) bs

/-- XOR-fold of a byte list, used by the model's authentication tag. -/
def xorFold (l : List Nat) : Nat :=
  l.foldr (fun a b => a ^^^ b) 0

/-- The model's authentication tag over key, initialization vector and
ciphertext: any change of the ciphertext or of the stored tag is detected. -/
def authTag (key : List Nat) (iv : Nat) (c : List Nat) : Nat :=
  xorFold key ^^^ iv ^^^ xorFold c

/-- An encrypted frame: initialization vector, ciphertext body, trailing
authentication tag (spec section 4.2). -/
structure EncryptedFrame where
  iv : Nat
  ciphertext : List Nat
  tag : Nat
deriving DecidableEq

/-- Encryption in the idealized model: XOR with the keystream and append
the authentication tag. -/
def encryptFrame (key : List Nat) (iv : Nat) (plain : List Nat) : EncryptedFrame :=
  let c := streamXor key iv 0 plain
  ⟨iv, c, authTag key iv c⟩

/-- Authenticated decryption: recompute the tag over the received
ciphertext and compare with the stored tag; on mismatch fail with
DecryptionFailed (`none`, no partial output), otherwise return the
plaintext. -/
def decryptFrame (key : List Nat) (f : EncryptedFrame) : Option (List Nat) :=
  if authTag key f.iv f.ciphertext = f.tag then
    some (streamXor key f.iv 0 f.ciphertext)
  else
    none

/-- A frame with bit k of ciphertext byte j flipped. -/
def flipCipherBit (f : EncryptedFrame) (j k : Nat) : EncryptedFrame :=
  ⟨f.iv, f.ciphertext.set j ((f.ciphertext.getD j 0) ^^^ 2 ^ k), f.tag⟩

/-- A frame with bit k of the authentication tag flipped. -/
def flipTagBit (f : EncryptedFrame) (k : Nat) : EncryptedFrame :=
  ⟨f.iv, f.ciphertext, f.tag ^^^ 2 ^ k⟩

theorem streamXor_involutive (key : List Nat) (iv : Nat) :
    ∀ (i : Nat) (l : List Nat), streamXor key iv i (streamXor key iv i l) = l := by
  intro i l
  induction l generalizing i with
  | nil => rfl
  | cons b bs ih =>
    simp only [streamXor, List.cons.injEq]
    exact ⟨by rw [Nat.xor_assoc, Nat.xor_self, Nat.xor_zero], ih (i + 1)⟩

theorem xor_ne_self {x m : Nat} (hm : m ≠ 0) : x ^^^ m ≠ x := by
  intro h
  apply hm
  calc m = 0 ^^^ m := (Nat.zero_xor m).symm
    _ = (x ^^^ x) ^^^ m := by rw [Nat.xor_self]
    _ = x ^^^ (x ^^^ m) := Nat.xor_assoc x x m
    _ = x ^^^ x := by rw [h]
    _ = 0 := Nat.xor_self x

theorem decryptFrame_tag_ok (key : List Nat) (iv : Nat) (c : List Nat) :
    decryptFrame key ⟨iv, c, authTag key iv c⟩ = some (streamXor key iv 0 c) := by
  simp [decryptFrame]

theorem decryptFrame_tag_bad (key : List Nat) (iv : Nat) (c : List Nat) (t : Nat)
    (h : authTag key iv c ≠ t) : decryptFrame key ⟨iv, c, t⟩ = none := by
  simp [decryptFrame, h]

theorem xorFold_set (c : List Nat) : ∀ (j : Nat), j < c.length → ∀ (m : Nat),
    xorFold (c.set j ((c.getD j 0) ^^^ m)) = xorFold c ^^^ m := by
  induction c with
  | nil => intro j hj; simp at hj
  | cons a rest ih =>
    intro j hj m
    cases j with
    | zero =>
      simp only [List.set_cons_zero, List.getD_cons_zero, xorFold, List.foldr_cons]
      rw [Nat.xor_assoc, Nat.xor_comm m _, ← Nat.xor_assoc]
    | succ j' =>
      simp only [List.set_cons_succ, List.getD_cons_succ, xorFold, List.foldr_cons]
      rw [show List.foldr (fun a b => a ^^^ b) 0 (rest.set j' (rest.getD j' 0 ^^^ m))
            = xorFold (rest.set j' (rest.getD j' 0 ^^^ m)) from rfl,
          ih j' (by simpa using hj) m]
      rw [show List.foldr (fun a b => a ^^^ b) 0 rest = xorFold rest from rfl]
      rw [Nat.xor_assoc]

theorem streamXor_length (key : List Nat) (iv : Nat) :
    ∀ (i : Nat) (l : List Nat), (streamXor key iv i l).length = l.length := by
  intro i l
  induction l generalizing i with
  | nil => rfl
  | cons b bs ih => simp [streamXor, ih]

/-- Claim C4: in the modelled authenticated decryption, encrypting any
plaintext frame under a 16-byte key and decrypting with the same key yields
the original plaintext exactly; flipping any single bit of the ciphertext
or of the authentication tag makes decryption fail (DecryptionFailed,
`none`), never a silently wrong plaintext. -/
theorem encrypt_decrypt_roundtrip (key : List Nat) (_hkey : key.length = 16)
    (iv : Nat) (plain : List Nat) (j k : Nat)
    (hj : j < plain.length) (_hk : k < 8) :
    decryptFrame key (encryptFrame key iv plain) = some plain
  ∧ decryptFrame key (flipCipherBit (encryptFrame key iv plain) j k) = none
  ∧ decryptFrame key (flipTagBit (encryptFrame key iv plain) k) = none := by
  have hpow : (2 : Nat) ^ k ≠ 0 := (Nat.pow_pos (show 0 < 2 by omega)).ne'
  have henc : encryptFrame key iv plain =
      ⟨iv, streamXor key iv 0 plain, authTag key iv (streamXor key iv 0 plain)⟩ := rfl
  have hlen : (streamXor key iv 0 plain).length = plain.length :=
    streamXor_length key iv 0 plain
  refine ⟨?_, ?_, ?_⟩
  · rw [henc, decryptFrame_tag_ok, streamXor_involutive]
  · rw [henc]
    refine decryptFrame_tag_bad key iv _ _ ?_
    simp only [authTag]
    rw [xorFold_set (streamXor key iv 0 plain) j (by omega) (2 ^ k)]
    rw [← Nat.xor_assoc]
    exact xor_ne_self hpow
  · rw [henc]
    refine decryptFrame_tag_bad key iv _ _ ?_
    intro h
    exact xor_ne_self hpow h.symm

/-- Claim C4 witness: a concrete key, initialization vector and plaintext. -/
theorem encrypt_decrypt_roundtrip_witness :
    decryptFrame [1, 2, 3, 4, 5, 6, 7, 8, 9, 10, 11, 12, 13, 14, 15, 16]
      (encryptFrame [1, 2, 3, 4, 5, 6, 7, 8, 9, 10, 11, 12, 13, 14, 15, 16] 77 [47, 65, 66]) =
      some [47, 65, 66]
  ∧ decryptFrame [1, 2, 3, 4, 5, 6, 7, 8, 9, 10, 11, 12, 13, 14, 15, 16]
      (flipCipherBit
        (encryptFrame [1, 2, 3, 4, 5, 6, 7, 8, 9, 10, 11, 12, 13, 14, 15, 16] 77 [47, 65, 66])
        1 3) = none
  ∧ decryptFrame [1, 2, 3, 4, 5, 6, 7, 8, 9, 10, 11, 12, 13, 14, 15, 16]
      (flipTagBit
        (encryptFrame [1, 2, 3, 4, 5, 6, 7, 8, 9, 10, 11, 12, 13, 14, 15, 16] 77 [47, 65, 66])
        3) = none :=
  encrypt_decrypt_roundtrip [1, 2, 3, 4, 5, 6, 7, 8, 9, 10, 11, 12, 13, 14, 15, 16]
    (by decide) 77 [47, 65, 66] 1 3 (by decide) (by decide)

/-! ## Field walker (modelled from the spec) -/

/-- Digits of a decimal number accumulated into a natural. -/
def digitsToNat (ds : List Char) : Nat :=
  ds.foldl (fun acc c => 10 * acc + (c.toNat - '0'.toNat)) 0

/-- Consume a nonempty run of decimal digits. -/
def takeNat (cs : List Char) : Option (Nat × List Char) :=
  let ds := cs.takeWhile Char.isDigit
  if ds.isEmpty then none
  else some (digitsToNat ds, cs.dropWhile Char.isDigit)

/-- Consume one expected character. -/
def expectChar (c : Char) : List Char → Option (List Char)
  | x :: rest => if x = c then some rest else none
  | [] => none

/-- Render a normalized OBIS code A-B:C.D.E with an optional sixth group. -/
def obisString (a b c d e : Nat) (f : Option Nat) : String :=
  toString a ++ "-" ++ toString b ++ ":" ++ toString c ++ "." ++ toString d
    ++ "." ++ toString e
    ++ (match f with
        | none => ""
        | some x => "." ++ toString x)

/-- Modelled from the spec: the vendored C++ field walker is not among the
given sources. Spec section 3: an OBIS code has the form A-B:C.D.E with an
optional .F group, the groups being small non-negative integers, and is
normalized to one canonical form before lookup. -/
def parseObis (cs : List Char) : Option (String × List Char) := do
  let (a, r1) ← takeNat cs
  let r2 ← expectChar '-' r1
  let (b, r3) ← takeNat r2
  let r4 ← expectChar ':' r3
  let (c, r5) ← takeNat r4
  let r6 ← expectChar '.' r5
  let (d, r7) ← takeNat r6
  let r8 ← expectChar '.' r7
  let (e, r9) ← takeNat r8
  match expectChar '.' r9 with
  | some r10 => do
    let (f, r11) ← takeNat r10
    some (obisString a b c d e (some f), r11)
  | none => some (obisString a b c d e none, r9)

/-- Consume one parenthesized value group, returning its content. -/
def takeGroup (cs : List Char) : Option (List Char × List Char) := do
  let r1 ← expectChar '(' cs
  let content := r1.takeWhile (fun c => c ≠ ')' && c ≠ '(')
  let r2 := r1.dropWhile (fun c => c ≠ ')' && c ≠ '(')
  let r3 ← expectChar ')' r2
  some (content, r3)

/-- A decimal number shape: digits with an optional fractional part; the
mantissa preserves every written digit and the exponent is the number of
fractional digits (no silent rounding, spec section 4.4). -/
def numberVal (cs : List Char) : Option (Int × Nat) :=
  let ip := cs.takeWhile Char.isDigit
  let rest := cs.dropWhile Char.isDigit
  if ip.isEmpty then none
  else
    match rest with
    | [] => some ((digitsToNat ip : Int), 0)
    | '.' :: frac =>
      if !frac.isEmpty && frac.all Char.isDigit then
        some ((digitsToNat (ip ++ frac) : Int), frac.length)
      else none
    | _ => none

/-- The fixed timestamp shape: twelve digits followed by the DST marker S
or W (spec section 4.4). -/
def timestampVal (cs : List Char) : Option ParsedValue :=
  if cs.length = 13 && (cs.take 12).all Char.isDigit
      && (cs.getD 12 ' ' = 'S' || cs.getD 12 ' ' = 'W') then
    some (ParsedValue.timestamp (String.mk (cs.take 12)) (cs.getD 12 ' ' = 'S'))
  else none

/-- Classify one group's content against the known value grammars: a
numeric value with unit, a timestamp, or free text (spec section 4.4). -/
def classifyContent (content : List Char) : ParsedValue :=
  let pre := content.takeWhile (fun c => c ≠ '*')
  let post := content.dropWhile (fun c => c ≠ '*')
  match post with
  | '*' :: unit =>
    match numberVal pre with
    | some (m, e) => ParsedValue.numeric m e (String.mk unit)
    | none => ParsedValue.text (String.mk content)
  | _ =>
    match timestampVal content with
    | some v => v
    | none => ParsedValue.text (String.mk content)

/-- Consume one or more value groups until the end of the line; fuel bounds
the recursion by the remaining length. -/
def takeGroups : Nat → List Char → Option (List ParsedValue)
  | _, [] => some []
  | 0, _ :: _ => none
  | fuel + 1, cs => do
    let (content, rest) ← takeGroup cs
    let vs ← takeGroups fuel rest
    some (classifyContent content :: vs)

/-- Parse one line of a plaintext frame: an OBIS code followed by one or
more value groups filling the rest of the line, each group producing one
(code, value) pair; a line of any other shape is unrecognized (`none`). -/
def parseLine (cs : List Char) : Option (List (String × ParsedValue)) := do
  let (code, rest) ← parseObis cs
  let vs ← takeGroups rest.length rest
  if vs.isEmpty then none
  else some (vs.map (fun v => (code, v)))

/-- Walk a plaintext frame line by line: every recognized line contributes
its pairs in order, every unrecognized line is skipped and counted (spec
sections 4.4 and 7: unrecognized or malformed lines are not fatal to the
frame). Returns the pairs and the count of skipped lines. -/
def walkFrame : List (List Char) → List (String × ParsedValue) × Nat
  | [] => ([], 0)
  | l :: ls =>
    let (ps, n) := walkFrame ls
    match parseLine l with
    | some prs => (prs ++ ps, n)
    | none => (ps, n + 1)

/-- Claim C7: walking a frame never fails as a whole: its pair list is
exactly the concatenation of the pairs of the recognized lines in frame
order, its skip count is exactly the number of unrecognized lines, and
every pair of every recognized line is present in the output. -/
theorem walkFrame_tolerant (lines : List (List Char)) :
    (walkFrame lines).1 = (lines.filterMap parseLine).flatten
  ∧ (walkFrame lines).2 = lines.countP (fun l => (parseLine l).isNone)
  ∧ ∀ l ∈ lines, ∀ prs, parseLine l = some prs →
      ∀ pr ∈ prs, pr ∈ (walkFrame lines).1 := by
  induction lines with
  | nil => exact ⟨rfl, rfl, by simp⟩
  | cons l ls ih =>
    obtain ⟨ih1, ih2, ih3⟩ := ih
    rcases hl : parseLine l with _ | prs
    · refine ⟨?_, ?_, ?_⟩
      · simp [walkFrame, hl, ih1]
      · simp [walkFrame, hl, ih2, List.countP_cons]
      · intro l' hl' prs' hprs' pr hpr
        rcases hl' with _ | ⟨_, hl'⟩
        · rw [hl] at hprs'; cases hprs'
        · have := ih3 l' hl' prs' hprs' pr hpr
          simp only [walkFrame, hl]
          exact this
    · refine ⟨?_, ?_, ?_⟩
      · simp [walkFrame, hl, ih1]
      · simp [walkFrame, hl, ih2, List.countP_cons]
      · intro l' hl' prs' hprs' pr hpr
        simp only [walkFrame, hl, List.mem_append]
        rcases hl' with _ | ⟨_, hl'⟩
        · rw [hl] at hprs'
          cases hprs'
          exact Or.inl hpr
        · exact Or.inr (ih3 l' hl' prs' hprs' pr hpr)

/-- Claim C7 witness: a frame with one recognized line and one malformed
line: the malformed line is skipped and counted, the recognized pair is
delivered. -/
theorem walkFrame_tolerant_witness :
    ("1-0:1.8.1", ParsedValue.numeric 123456 3 "kWh") ∈
      (walkFrame
        ["1-0:1.8.1(000123.456*kWh)".toList, "garbage-line".toList]).1 :=
  (walkFrame_tolerant
      ["1-0:1.8.1(000123.456*kWh)".toList, "garbage-line".toList]).2.2
    "1-0:1.8.1(000123.456*kWh)".toList (by decide)
    [("1-0:1.8.1", ParsedValue.numeric 123456 3 "kWh")] (by decide)
    ("1-0:1.8.1", ParsedValue.numeric 123456 3 "kWh") (by decide)

/-! ## Standard text-sensor code generation (from src/text_sensor.py,
to_code) -/

/-- One entry of the text-sensor platform configuration as iterated by
to_code of src/text_sensor.py: its key and whether its value is a
dict-shaped sensor configuration (the hub-id entry and other non-dict
entries are skipped by the loop). -/
structure TsEntry where
  key : String
  isConfDict : Bool
deriving DecidableEq

/-- Whether the to_code loop of src/text_sensor.py processes an entry: it
skips entries whose value is not a dict and the hub-id entry. -/
def tsActive (e : TsEntry) : Bool :=
  e.isConfDict && e.key ≠ "dsmr_custom_hub_id"

/-- The to_code loop of src/text_sensor.py (lines 127-150): for every
processed entry it registers the sensor with the hub through the setter
named set_ followed by the key, and appends F(key) to the field list used
for the generated DSMR_CUSTOM_TEXT_SENSOR_LIST definition unless the key is
telegram. Returns (hub setter registrations, field-list entries), both in
iteration order. -/
def tsToCode : List TsEntry → List String × List String
  | [] => ([], [])
  | e :: rest =>
    let (regs, fl) := tsToCode rest
    if tsActive e then
      (("set_" ++ e.key) :: regs,
       if e.key = "telegram" then fl else ("F(" ++ e.key ++ ")") :: fl)
    else
      (regs, fl)

theorem string_wrap_inj {k t : String} (h : "F(" ++ k ++ ")" = "F(" ++ t ++ ")") :
    k = t := by
  have hdata : ("F(" ++ k ++ ")").data = ("F(" ++ t ++ ")").data := congrArg String.data h
  simp only [String.data_append] at hdata
  have h2 := (List.append_right_inj "F(".data).mp hdata
  have h3 := (List.append_left_inj ")".data).mp h2
  cases k; cases t
  exact congrArg String.mk (by simpa using h3)

/-- Claim C10: the text-sensor code generator registers every configured
standard text sensor with the hub through its set_ key setter, and the
generated field list holds F(key) for exactly the configured keys other
than telegram: the telegram sensor is registered with the hub but always
left out of the field list. -/
theorem text_sensor_to_code (entries : List TsEntry) :
    (tsToCode entries).1 =
      (entries.filter tsActive).map (fun e => "set_" ++ e.key)
  ∧ (tsToCode entries).2 =
      ((entries.filter tsActive).filter (fun e => e.key ≠ "telegram")).map
        (fun e => "F(" ++ e.key ++ ")")
  ∧ (∀ e ∈ entries, tsActive e →
      ("set_" ++ e.key) ∈ (tsToCode entries).1
      ∧ (e.key = "telegram" → ("F(" ++ e.key ++ ")") ∉ (tsToCode entries).2)) := by
  have main : (tsToCode entries).1 =
        (entries.filter tsActive).map (fun e => "set_" ++ e.key)
      ∧ (tsToCode entries).2 =
        ((entries.filter tsActive).filter (fun e => e.key ≠ "telegram")).map
          (fun e => "F(" ++ e.key ++ ")") := by
    induction entries with
    | nil => exact ⟨rfl, rfl⟩
    | cons e rest ih =>
      obtain ⟨ih1, ih2⟩ := ih
      by_cases ha : tsActive e = true
      · by_cases ht : e.key = "telegram"
        · refine ⟨?_, ?_⟩
          · simp [tsToCode, ha, ht, ih1]
          · simp [tsToCode, ha, ht, ih2]
        · refine ⟨?_, ?_⟩
          · simp [tsToCode, ha, ht, ih1]
          · simp [tsToCode, ha, ht, ih2]
      · refine ⟨?_, ?_⟩
        · simp [tsToCode, ha, ih1]
        · simp [tsToCode, ha, ih2]
  refine ⟨main.1, main.2, fun e he hae => ⟨?_, fun ht hmem => ?_⟩⟩
  · rw [main.1]
    simp only [List.mem_map]
    exact ⟨e, List.mem_filter.mpr ⟨he, hae⟩, rfl⟩
  · rw [main.2] at hmem
    simp only [List.mem_map] at hmem
    obtain ⟨e', he', heq⟩ := hmem
    have : e'.key = e.key := string_wrap_inj heq
    have hne := (List.mem_filter.mp he').2
    rw [this, ht] at hne
    simp at hne

/-- Claim C10 witness: a configuration with the hub-id entry, an
identification sensor and a telegram sensor: both sensors are registered,
only identification enters the field list. -/
theorem text_sensor_to_code_witness :
    ("set_identification" : String) ∈
      (tsToCode [⟨"dsmr_custom_hub_id", false⟩, ⟨"identification", true⟩,
        ⟨"telegram", true⟩]).1
  ∧ (("F(" ++ "telegram" ++ ")" : String) ∉
      (tsToCode [⟨"dsmr_custom_hub_id", false⟩, ⟨"identification", true⟩,
        ⟨"telegram", true⟩]).2) :=
  ⟨((text_sensor_to_code
      [⟨"dsmr_custom_hub_id", false⟩, ⟨"identification", true⟩,
        ⟨"telegram", true⟩]).2.2
      ⟨"identification", true⟩ (by decide) (by decide)).1,
   ((text_sensor_to_code
      [⟨"dsmr_custom_hub_id", false⟩, ⟨"identification", true⟩,
        ⟨"telegram", true⟩]).2.2
      ⟨"telegram", true⟩ (by decide) (by decide)).2 (by decide)⟩

end DsmrCustom
